import Mathlib

/-!
Verification of behavioural properties of the douban-showcase service.

This file gives a shallow embedding, in Lean 4, of the parts of the
Python code base that the verified properties talk about:

* `src/routes/frontend.py` — page-count arithmetic of the type page;
* `src/services/analytics/data_provider.py` and
  `src/services/export/json_exporter.py` — the five-bucket rating
  distribution;
* `src/services/analytics/formatter.py` — the top-N-plus-rest split;
* `src/services/analytics/statistics_service.py` — the dashboard cache;
* `src/services/sync/scheduler.py` — the sync state machine and the
  incremental pre-check;
* `src/services/analytics/analyzer.py` — card-subtitle metadata extraction;
* `src/services/data/database.py` and
  `src/services/export/json_exporter.py` — `save_interest`, the JSON
  round-trip of `raw_json`, and the bulk export.

Python strings are modelled as `List Char` (Unicode code points, which is
what Python's `str` comparisons and slicing operate on); Python `int` as
`Nat`/`Int`; Python dictionaries as association lists preserving insertion
order (Python 3.7+ dict semantics).  Fallible code is modelled with
`Option`.  Each definition carries a comment pointing at the Python
function it embeds.
-/

/-- Python `str` is modelled as its list of Unicode code points. -/
abbrev Str := List Char

/-- Python string comparison `a < b` (lexicographic on code points). -/
def strLt : Str → Str → Bool
  | [], [] => false
  | [], _ :: _ => true
  | _ :: _, [] => false
  | a :: as, b :: bs =>
    if a.val < b.val then true
    else if b.val < a.val then false
    else strLt as bs

/-- Python `s.strip()` (whitespace trimmed from both ends). -/
def pyStrip (s : Str) : Str :=
  ((s.dropWhile Char.isWhitespace).reverse.dropWhile Char.isWhitespace).reverse

/-- Python `s.split(" / ")`: split on each non-overlapping occurrence of
the three-character separator, scanning left to right, keeping empty
pieces. -/
def splitSlash : Str → List Str
  | [] => [[]]
  | ' ' :: '/' :: ' ' :: rest => [] :: splitSlash rest
  | c :: rest =>
    match splitSlash rest with
    | p :: ps => (c :: p) :: ps
    | [] => [[c]]

/-- Python `s.split()` (no separator): split on whitespace runs, dropping
empty pieces. -/
def pySplitWs (s : Str) : List Str :=
  (List.splitOnP Char.isWhitespace s).filter (· ≠ [])

/-- Python `s.isdigit()` for ASCII decimal digits (the only digits that
occur in the data this code handles). -/
def pyIsDigit (s : Str) : Bool :=
  !s.isEmpty && s.all Char.isDigit

/-- Decimal value of a digit string, `int(s)` for strings accepted by
`pyIsDigit`. -/
def charsToNatAux (acc : Nat) : Str → Nat
  | [] => acc
  | c :: cs => charsToNatAux (acc * 10 + (c.toNat - 48)) cs

/-- Python `int(s)` on a digit string. -/
def strToNat (s : Str) : Nat := charsToNatAux 0 s

/-! ## Page count of the type-browsing page

`src/routes/frontend.py`, `type_page`, line 276:
`total_pages = (total + limit - 1) // limit if total > 0 else 1`. -/

/-- Page-count computation of `type_page`. -/
def total_pages (total limit : Nat) : Nat :=
  if 0 < total then (total + limit - 1) / limit else 1

/-! ## Five-bucket rating distribution

Bucket assignment appears twice in the source with identical band
structure: as a SQL `CASE` in
`StatisticsDataProvider.get_rating_groups_by_type`
(`src/services/analytics/data_provider.py`) over the REAL column
`douban_score`, and as a Python `elif` chain in
`JsonExporter._generate_statistics` (`src/services/export/json_exporter.py`)
over `my_rating`.  Scores are modelled as exact rationals (`ℚ`), the
idealisation of the REAL column. -/

/-- The five bucket labels, in source order:
未评分, 1-2星, 3-5星, 6-7星, 8-10星. -/
structure RatingDist where
  unrated : Nat
  low1to2 : Nat
  mid3to5 : Nat
  high6to7 : Nat
  top8to10 : Nat
deriving DecidableEq, Repr

/-- Bucket of a single score: the SQL `CASE` of
`get_rating_groups_by_type` (`none` is the implicit `ELSE NULL`). -/
def ratingGroup (score : ℚ) : Option Str :=
  if score = 0 then some "未评分".data
  else if 1 ≤ score ∧ score ≤ 2 then some "1-2星".data
  else if 3 ≤ score ∧ score ≤ 5 then some "3-5星".data
  else if 6 ≤ score ∧ score ≤ 7 then some "6-7星".data
  else if 8 ≤ score ∧ score ≤ 10 then some "8-10星".data
  else none

/-- One step of the `elif` chain in `_generate_statistics` (a score
matching no band leaves every counter unchanged). -/
def addRating (d : RatingDist) (score : ℚ) : RatingDist :=
  if score = 0 then { d with unrated := d.unrated + 1 }
  else if 1 ≤ score ∧ score ≤ 2 then { d with low1to2 := d.low1to2 + 1 }
  else if 3 ≤ score ∧ score ≤ 5 then { d with mid3to5 := d.mid3to5 + 1 }
  else if 6 ≤ score ∧ score ≤ 7 then { d with high6to7 := d.high6to7 + 1 }
  else if 8 ≤ score ∧ score ≤ 10 then { d with top8to10 := d.top8to10 + 1 }
  else d

/-- The `by_rating` table built by `_generate_statistics` over a list of
scores. -/
def byRating (scores : List ℚ) : RatingDist :=
  scores.foldl addRating ⟨0, 0, 0, 0, 0⟩

/-! ## Top-N-plus-rest split

`StatisticsFormatter._find_top_n_rest` (`src/services/analytics/formatter.py`,
lines 68-90).  A Python dict `Dict[str, int]` is an association list in
insertion order; `sorted(data.items(), key=lambda x: x[1], reverse=True)`
is a stable descending sort by value, which `List.mergeSort` with the
relation `b.2 ≤ a.2` reproduces exactly (stable, ties keep insertion
order). -/

/-- `_find_top_n_rest(data, n)`: the top-n entries by value (descending)
and the sum of the remaining values; a map with at most `n` keys is
returned unchanged with remainder `0`. -/
def find_top_n_rest (data : List (Str × Nat)) (n : Nat) : List (Str × Nat) × Nat :=
  if data.length ≤ n then (data, 0)
  else
    let sorted_items := data.mergeSort (fun a b => decide (b.2 ≤ a.2))
    (sorted_items.take n, ((sorted_items.drop n).map Prod.snd).sum)

/-! ## Dashboard cache of the statistics service

`StatisticsService._save_to_cache` (`src/services/analytics/statistics_service.py`,
lines 541-560).  `_dashboard_cache` and `_cache_times` are two dicts with
identical key sets (every write path mutates both together under the
cache lock), so the pair is modelled as one association list of
`(key, timestamp)` entries in insertion order; the cached payloads are
irrelevant to the eviction behaviour.  Timestamps (`time.time()`) are
modelled as `Nat`. -/

/-- Python `min(times.keys(), key=lambda k: times.get(k, 0))`: the first
key (in insertion order) holding the minimal timestamp; `none` on an
empty dict (where Python would raise). -/
def oldestKey (times : List (Str × Nat)) : Option Str :=
  (times.foldl (fun acc p =>
    match acc with
    | none => some p
    | some q => if p.2 < q.2 then some p else some q) none).map Prod.fst

/-- Python `del d[k]` on a dict (keys are unique, so the filter removes
exactly the entry with key `k`). -/
def eraseKey (l : List (Str × Nat)) (k : Str) : List (Str × Nat) :=
  l.filter (fun p => p.1 ≠ k)

/-- Python `d[k] = t`: update in place if the key exists, else append. -/
def insertEntry (l : List (Str × Nat)) (k : Str) (t : Nat) : List (Str × Nat) :=
  if l.any (fun p => p.1 = k) then
    l.map (fun p => if p.1 = k then (k, t) else p)
  else
    l ++ [(k, t)]

/-- `_save_to_cache(key, data)`: evict the oldest entry only when the
cache already holds more than 20 entries, then store the new entry. -/
def save_to_cache (cache : List (Str × Nat)) (key : Str) (now : Nat) : List (Str × Nat) :=
  let cache' :=
    if cache.length > 20 then
      match oldestKey cache with
      | some ok => eraseKey cache ok
      | none => cache
    else cache
  insertEntry cache' key now

/-! ## Incremental pre-check

`Scheduler._pre_check_updates` (`src/services/sync/scheduler.py`,
lines 143-205).  Inputs that the Python method reads from collaborators
are passed explicitly: the first remote page (`api.get_interests_page`,
`none` models a falsy/failed response), the local counts
(`db.get_interest_count`, per type for the fixed status under check) and
the latest local tv timestamp (`db.get_latest_timestamps("tv")[status]`,
`[]` when absent).  The float tolerance `diff / total_count <= 0.02` is
modelled exactly as the rational inequality `100 * diff ≤ 2 * total`
(equivalent for `total > 0`; the float rounding of `0.02` cannot flip the
comparison at the integer magnitudes involved).  The `except` branch
(network failure → `(True, 0, 0)`) is outside this pure model. -/

/-- One entry of the first remote page (only `create_time` is read). -/
structure PageItem where
  create_time : Str
deriving DecidableEq, Repr

/-- The first remote page: reported `total` and the page's items. -/
structure FirstPage where
  total : Nat
  interests : List PageItem
deriving DecidableEq, Repr

/-- `PRE_CHECK_SAMPLE_SIZE` from the scheduler. -/
def PRE_CHECK_SAMPLE_SIZE : Nat := 5

/-- The sample loop of `_pre_check_updates`: does any of the first five
fetched items have a `create_time` newer than the reference timestamp? -/
def preCheckSampleNewer (latest : Str) (items : List PageItem) : Bool :=
  (items.take PRE_CHECK_SAMPLE_SIZE).any (fun it => strLt latest it.create_time)

/-- The local count the pre-check compares against: for the movie type
the sum of the local movie and tv counts (scheduler.py lines 163-166),
otherwise the type's own count (line 175).  This names the
`local_count` binding of `pre_check_updates` below. -/
def preCheckLocalCount (type_ : Str) (getCount : Str → Nat) : Nat :=
  if type_ = "movie".data then getCount "movie".data + getCount "tv".data
  else getCount type_

/-- The reference timestamp of the sample comparison: for the movie type
the local tv timestamp when present and newer (scheduler.py lines
169-172), otherwise the passed latest timestamp.  This names the `ts`
binding of `pre_check_updates` below. -/
def preCheckTimestamp (type_ : Str) (latestTimestamp tvTimestamp : Str) : Str :=
  if type_ = "movie".data ∧ tvTimestamp ≠ [] ∧ strLt latestTimestamp tvTimestamp
  then tvTimestamp else latestTimestamp

/-- `_pre_check_updates(type_, status, latest_timestamp)`, returning
`(has_updates, total_count, local_count)`. -/
def pre_check_updates (type_ : Str) (latestTimestamp : Str)
    (firstPage : Option FirstPage) (getCount : Str → Nat)
    (tvTimestamp : Str) : Bool × Nat × Nat :=
  if latestTimestamp = [] then (true, 0, 0)
  else
    match firstPage with
    | none => (false, 0, 0)
    | some fp =>
      if fp.interests.isEmpty then (false, 0, 0)
      else
        let total_count := fp.total
        let local_count :=
          if type_ = "movie".data then getCount "movie".data + getCount "tv".data
          else getCount type_
        let ts :=
          if type_ = "movie".data ∧ tvTimestamp ≠ [] ∧ strLt latestTimestamp tvTimestamp
          then tvTimestamp else latestTimestamp
        let diff := ((total_count : Int) - (local_count : Int)).natAbs
        if total_count ≠ local_count ∧
            ¬ (diff ≤ 3 ∨ (total_count > 100 ∧ 100 * diff ≤ 2 * total_count)) then
          (true, total_count, local_count)
        else if preCheckSampleNewer ts fp.interests then
          (true, total_count, local_count)
        else
          (false, total_count, local_count)

/-! ## Card-subtitle metadata extraction

`DataAnalyzer._extract_metadata` (`src/services/analytics/analyzer.py`,
lines 71-198).  The three per-type strategies (movie/tv, book, game) are
embedded.  The regexes are unfolded into explicit scanning functions:
`(?:\[([^\]]+)\])?\s*(.*)` for the book author and
`\b(19\d{2}|20\d{2})\b` for the game year.  Caveats kept as close to
Python as the model allows: `.` in the author regex would stop at a
newline (none of this data contains newlines), and `\w` for the word
boundary is approximated as ASCII alphanumerics, underscore, and all
non-ASCII code points (CJK text is word-class for Python's Unicode
`\w`). -/

/-- The author record built by the book branch. -/
structure Author where
  nationality : Str
  name : Str
deriving DecidableEq, Repr

/-- The metadata dictionary: absent keys are `none`. -/
structure Metadata where
  regions : Option (List Str) := none
  year : Option Nat := none
  author : Option Author := none
  publisher : Option Str := none
  developer : Option Str := none
deriving DecidableEq, Repr

/-- Python `s.lower()` for ASCII letters (the type tags are ASCII). -/
def pyLower (s : Str) : Str :=
  s.map (fun c => if 'A' ≤ c ∧ c ≤ 'Z' then Char.ofNat (c.toNat + 32) else c)

/-- Groups of `re.match(r'(?:\[([^\]]+)\])?\s*(.*)', s)`: the optional
bracketed nationality (empty list when the group does not participate)
and the remainder after leading whitespace. -/
def matchBracketAuthor (s : Str) : Str × Str :=
  match s with
  | '[' :: rest =>
    let content := rest.takeWhile (· ≠ ']')
    match rest.dropWhile (· ≠ ']') with
    | ']' :: tail =>
      if content ≠ [] then (content, tail.dropWhile Char.isWhitespace)
      else ([], s.dropWhile Char.isWhitespace)
    | _ => ([], s.dropWhile Char.isWhitespace)
  | _ => ([], s.dropWhile Char.isWhitespace)

/-- The year guard shared by the movie and book branches: a digit string
whose value lies in [1800, 2100]. -/
def yearFromPart (p : Str) : Option Nat :=
  if pyIsDigit p then
    let y := strToNat p
    if 1800 ≤ y ∧ y ≤ 2100 then some y else none
  else none

/-- Python regex `\w` (see the section comment for the approximation). -/
def isWordChar (c : Char) : Bool :=
  c.isAlphanum || c = '_' || decide (c.val ≥ 128)

/-- `re.search(r'\b(19\d{2}|20\d{2})\b', part)`: value of the leftmost
match, scanning with the preceding character as boundary context. -/
def gameYearSearchAux : Option Char → Str → Option Nat
  | _, [] => none
  | prev, c1 :: rest =>
    let here : Option Nat :=
      match rest with
      | c2 :: c3 :: c4 :: rest' =>
        let boundaryL : Bool := match prev with | some p => !(isWordChar p) | none => true
        let boundaryR : Bool := match rest' with | [] => true | c5 :: _ => !(isWordChar c5)
        if ((c1 == '1' && c2 == '9') || (c1 == '2' && c2 == '0')) &&
            c3.isDigit && c4.isDigit && boundaryL && boundaryR
        then some (strToNat [c1, c2, c3, c4]) else none
      | _ => none
    match here with
    | some y => some y
    | none => gameYearSearchAux (some c1) rest

/-- The game-branch year loop: first part whose first regex match lies in
[1970, 2100] wins; a part with an out-of-range match does not stop the
loop. -/
def gameYearFromParts : List Str → Option Nat
  | [] => none
  | p :: ps =>
    match gameYearSearchAux none p with
    | some y => if 1970 ≤ y ∧ y ≤ 2100 then some y else gameYearFromParts ps
    | none => gameYearFromParts ps

/-- `_extract_metadata(content_type, card_subtitle)`. -/
def extract_metadata (content_type : Str) (card_subtitle : Str) : Metadata :=
  if pyStrip card_subtitle = [] then {}
  else
    let parts := ((splitSlash card_subtitle).map pyStrip).filter (· ≠ [])
    if pyLower content_type = "movie".data ∨ pyLower content_type = "tv".data then
      if parts.length ≥ 2 then
        let region_text := pyStrip (parts.getD 1 [])
        let regions := ((pySplitWs region_text).map pyStrip).filter (· ≠ [])
        let md : Metadata := { regions := some regions }
        match yearFromPart (pyStrip (parts.getD 0 [])) with
        | some y => { md with year := some y }
        | none => md
      else {}
    else if pyLower content_type = "book".data then
      if parts.length ≥ 1 then
        let author_raw := pyStrip (parts.getD 0 [])
        let groups := matchBracketAuthor author_raw
        let nationality := pyStrip groups.1
        let name := if groups.2 ≠ [] then pyStrip groups.2 else pyStrip author_raw
        let md1 : Metadata :=
          if name ≠ [] then { author := some ⟨nationality, name⟩ } else {}
        let md2 :=
          if parts.length ≥ 3 then
            let publisher := pyStrip (parts.getD 2 [])
            if publisher ≠ [] then { md1 with publisher := some publisher } else md1
          else md1
        if parts.length ≥ 2 then
          match yearFromPart (pyStrip (parts.getD 1 [])) with
          | some y => { md2 with year := some y }
          | none => md2
        else md2
      else {}
    else if pyLower content_type = "game".data then
      let md1 : Metadata :=
        if parts.length ≥ 1 ∧ pyStrip (parts.getD 0 []) ≠ [] then
          { developer := some (pyStrip (parts.getD 0 [])) }
        else {}
      match gameYearFromParts parts with
      | some y => { md1 with year := some y }
      | none => md1
    else {}

/-! ## Sync scheduler state machine

`Scheduler` (`src/services/sync/scheduler.py`).  The observable state is
the `_is_syncing` flag and the two timestamps; `_sync_lock` serialises
access, so the lock-protected sections are modelled as atomic steps of a
sequential run.  `datetime.now()` is passed in as `now : Nat` (a day
number — coarse enough for the 30-day cadence).  The per-type sync
outcome is abstracted as `typeResult` (its network and database effects
do not touch the scheduler state); the image-sync pass mutates no
scheduler state and is omitted. -/

/-- Observable scheduler state. -/
structure SchedState where
  is_syncing : Bool
  last_sync : Option Nat
  last_full_sync : Option Nat
deriving DecidableEq, Repr

/-- `Scheduler._set_sync_state(state, is_full)`. -/
def set_sync_state (st : SchedState) (state : Bool) (is_full : Bool) (now : Nat) : SchedState :=
  { is_syncing := state
    last_sync := if state = false then some now else st.last_sync
    last_full_sync := if state = false ∧ is_full then some now else st.last_full_sync }

/-- `Scheduler.FULL_SYNC_DAYS`. -/
def FULL_SYNC_DAYS : Nat := 30

/-- The per-run type list:
`[t for t in self.sync_types if t != "tv" or "movie" not in self.sync_types]`. -/
def effectiveSyncTypes (sync_types : List Str) : List Str :=
  sync_types.filter (fun t => (t != "tv".data) || !(sync_types.contains "movie".data))

/-- `Scheduler.sync_all_data(incremental)`: returns the reported success
flag, the list of content types for which `sync_data_by_type` was
invoked, and the scheduler state afterwards.  The guard, the 30-day
escalation, the per-type loop and the `finally` clause are all explicit;
the `finally` reads the (possibly escalated) local `incremental`. -/
def sync_all_data (st : SchedState) (sync_types : List Str) (incremental : Bool)
    (typeResult : Str → Bool) (now : Nat) : Bool × List Str × SchedState :=
  if st.is_syncing then (false, [], st)
  else
    let st1 := set_sync_state st true (!incremental) now
    let escalate : Bool :=
      incremental &&
        match st1.last_full_sync with
        | some t => decide (FULL_SYNC_DAYS ≤ now - t)
        | none => false
    let incremental2 := if escalate then false else incremental
    let st2 := if escalate then set_sync_state st1 true true now else st1
    let types := effectiveSyncTypes sync_types
    let all_success := types.all typeResult
    (all_success, types, set_sync_state st2 false (!incremental2) now)

/-- `Scheduler._async_sync_worker`: sets the syncing state, calls
`sync_all_data`, and in its `finally` clause resets to idle. -/
def async_sync_worker (st : SchedState) (sync_types : List Str) (incremental : Bool)
    (typeResult : Str → Bool) (now : Nat) : Bool × List Str × SchedState :=
  let st1 := set_sync_state st true (!incremental) now
  let r := sync_all_data st1 sync_types incremental typeResult now
  (r.1, r.2.1, set_sync_state r.2.2 false (!incremental) now)

/-- `Scheduler.start_async_sync`: under the lock, fail if already
syncing, else claim the syncing flag (the spawned worker runs
afterwards). -/
def start_async_sync (st : SchedState) : Bool × SchedState :=
  if st.is_syncing then (false, st)
  else (true, { st with is_syncing := true })

/-- A successful `start_async_sync` followed by the complete execution of
the spawned worker thread; `none` when the start was refused. -/
def start_async_sync_run (st : SchedState) (sync_types : List Str) (incremental : Bool)
    (typeResult : Str → Bool) (now : Nat) : Option (Bool × List Str × SchedState) :=
  let r := start_async_sync st
  if r.1 then some (async_sync_worker r.2 sync_types incremental typeResult now)
  else none

/-! ## JSON values

The payloads handled by `Database.save_interest` and the exporter are the
values Python's `json` module maps to and from text: `None`, booleans,
integers, strings, lists and (insertion-ordered) dicts.  Floats are not
needed by any verified property and are left out of the model. -/

/-- A JSON value. -/
inductive Json where
  | null : Json
  | bool (b : Bool) : Json
  | num (n : Int) : Json
  | str (s : Str) : Json
  | arr (elems : List Json) : Json
  | obj (fields : List (Str × Json)) : Json

/-- Python `d.get(key, default)` on a JSON object (first binding wins;
non-dicts never reach the call sites modelled here). -/
def Json.getD (j : Json) (key : Str) (d : Json) : Json :=
  match j with
  | .obj fields =>
    match fields.find? (fun p => p.1 == key) with
    | some p => p.2
    | none => d
  | _ => d

/-- Python `key in d` on a JSON object. -/
def Json.hasKey (j : Json) (key : Str) : Bool :=
  match j with
  | .obj fields => fields.any (fun p => p.1 == key)
  | _ => false

/-- Python truthiness of a JSON value. -/
def Json.truthy : Json → Bool
  | .null => false
  | .bool b => b
  | .num n => n != 0
  | .str s => !s.isEmpty
  | .arr es => !es.isEmpty
  | .obj fs => !fs.isEmpty

/-- Decimal digits of `n`, most significant first, built with a
structural fuel so that the kernel can evaluate it (`fuel = n + 1`
always suffices: `n < 10 ^ (n + 1)`). -/
def natToCharsAux : Nat → Nat → Str → Str
  | 0, _, acc => acc
  | fuel + 1, n, acc =>
    if n < 10 then Char.ofNat (48 + n) :: acc
    else natToCharsAux fuel (n / 10) (Char.ofNat (48 + n % 10) :: acc)

/-- Python `str(n)` for `n : Nat`. -/
def natToChars (n : Nat) : Str := natToCharsAux (n + 1) n []

/-- Python `str(n)` for `n : Int`. -/
def intToChars (n : Int) : Str :=
  if n < 0 then '-' :: natToChars n.natAbs else natToChars n.natAbs

/-- JSON string escaping as `json.dumps` does it for the quote and the
backslash; code points below 0x20 would additionally be written as
escape sequences by Python, which changes the dumped text but not the
parse/dump round-trip, and none occur in this data. -/
def escapeChar (c : Char) : Str :=
  if c == '"' || c == '\\' then ['\\', c] else [c]

/-- Escaped body of a dumped JSON string. -/
def escapeStr (s : Str) : Str := (s.map escapeChar).flatten

mutual
/-- `json.dumps(v, ensure_ascii=False)` with CPython's default
separators (`", "` and `": "`). -/
def Json.dump : Json → Str
  | .null => "null".data
  | .bool true => "true".data
  | .bool false => "false".data
  | .num n => intToChars n
  | .str s => '"' :: escapeStr s ++ ['"']
  | .arr [] => ['[', ']']
  | .arr (e :: es) => '[' :: dumpElems e es ++ [']']
  | .obj [] => ['\x7b', '\x7d']
  | .obj (f :: fs) => '\x7b' :: dumpFields f fs ++ ['\x7d']
termination_by v => sizeOf v
decreasing_by all_goals (simp_wf <;> omega)

/-- Comma-separated dumped array elements. -/
def dumpElems : Json → List Json → Str
  | e, [] => Json.dump e
  | e, e' :: es => Json.dump e ++ ',' :: ' ' :: dumpElems e' es
termination_by e es => sizeOf e + sizeOf es
decreasing_by all_goals (simp_wf <;> omega)

/-- Comma-separated dumped object fields (`"key": value`). -/
def dumpFields : Str × Json → List (Str × Json) → Str
  | (k, v), [] => '"' :: escapeStr k ++ '"' :: ':' :: ' ' :: Json.dump v
  | (k, v), f :: fs =>
    '"' :: escapeStr k ++ '"' :: ':' :: ' ' :: Json.dump v ++ ',' :: ' ' :: dumpFields f fs
termination_by f fs => sizeOf f + sizeOf fs
decreasing_by all_goals (simp_wf <;> omega)
end

mutual
/-- Python `repr(v)` for JSON-shaped values (string quoting inside
containers uses single quotes; repr-level escaping of quote characters
inside such strings is not modelled — no verified property evaluates
it). -/
def pyRepr : Json → Str
  | .null => "None".data
  | .bool true => "True".data
  | .bool false => "False".data
  | .num n => intToChars n
  | .str s => Char.ofNat 39 :: s ++ [Char.ofNat 39]
  | .arr [] => ['[', ']']
  | .arr (e :: es) => '[' :: pyReprElems e es ++ [']']
  | .obj [] => ['\x7b', '\x7d']
  | .obj (f :: fs) => '\x7b' :: pyReprFields f fs ++ ['\x7d']
termination_by v => sizeOf v
decreasing_by all_goals (simp_wf <;> omega)

/-- Comma-separated repr of list elements. -/
def pyReprElems : Json → List Json → Str
  | e, [] => pyRepr e
  | e, e' :: es => pyRepr e ++ ',' :: ' ' :: pyReprElems e' es
termination_by e es => sizeOf e + sizeOf es
decreasing_by all_goals (simp_wf <;> omega)

/-- Comma-separated repr of dict items. -/
def pyReprFields : Str × Json → List (Str × Json) → Str
  | (k, v), [] => pyRepr (.str k) ++ ':' :: ' ' :: pyRepr v
  | (k, v), f :: fs =>
    pyRepr (.str k) ++ ':' :: ' ' :: pyRepr v ++ ',' :: ' ' :: pyReprFields f fs
termination_by f fs => sizeOf f + sizeOf fs
decreasing_by all_goals (simp_wf <;> omega)
end

/-- Python `str(v)`: identity on strings, `repr` on containers. -/
def pyStr (v : Json) : Str :=
  match v with
  | .str s => s
  | .null => "None".data
  | .bool true => "True".data
  | .bool false => "False".data
  | .num n => intToChars n
  | .arr es => pyRepr (.arr es)
  | .obj fs => pyRepr (.obj fs)

/-- `Database._ensure_string` (`src/services/data/database.py`, lines
223-231): `None` → `""`, empty list → `""`, non-empty list → `str` of its
first element, anything else → `str(value)`. -/
def ensure_string : Json → Str
  | .null => []
  | .arr [] => []
  | .arr (x :: _) => pyStr x
  | v => pyStr v

/-- `Database._validate_interest_data` (`src/services/data/database.py`,
lines 233-255): requires `id`, `status`, `create_time` keys; a dict
`subject` containing a `title` key and a truthy `subtype`. -/
def validate_interest_data (data : Json) : Bool :=
  data.hasKey "id".data && data.hasKey "status".data && data.hasKey "create_time".data &&
  (match data.getD "subject".data .null with
   | .obj sf =>
     Json.hasKey (.obj sf) "title".data &&
     Json.hasKey (.obj sf) "subtype".data &&
     (Json.getD (.obj sf) "subtype".data .null).truthy
   | _ => false)

/-- The column values of the `interests` row written by `save_interest`
(INSERT and UPDATE bind the same values to the same columns).  The
`year` column is omitted: its extraction heuristics
(`subject.year` plus the per-type `card_subtitle` scans,
`database.py` lines 330-455) are not read by any verified property and
influence no other column. -/
structure StoredRow where
  id : Json
  type : Json
  status : Str
  title : Str
  url : Str
  cover_url : Json
  douban_score : Json
  my_rating : Json
  comment : Str
  genres : Str
  card_subtitle : Str
  create_time : Str
  raw_json : Str

/-- `Database.save_interest(interest_data)` (`src/services/data/database.py`,
lines 279-498): validation, field extraction, and the row written.
`none` models every path on which no row is written: failed validation,
falsy id or subject, and the `except` clause (reached e.g. when
`subject["rating"]` is truthy but not a dict, making
`subject["rating"].get` raise).  A non-dict argument fails validation
(`in` raises `TypeError`, caught by the `except` clause). -/
def save_interest (interest_data : Json) : Option StoredRow :=
  match interest_data with
  | .obj _ =>
    if validate_interest_data interest_data then
      let interest_id := interest_data.getD "id".data .null
      if !interest_id.truthy then none
      else
        let subject := interest_data.getD "subject".data (.obj [])
        if !subject.truthy then none
        else
          let subject_type := subject.getD "type".data (.str [])
          let title := ensure_string (subject.getD "title".data (.str []))
          let url := ensure_string (subject.getD "url".data (.str []))
          let cover_url0 := subject.getD "cover_url".data (.str [])
          let cover_url :=
            if !cover_url0.truthy then
              match subject.getD "pic".data (.obj []) with
              | .obj pf =>
                Json.getD (.obj pf) "large".data (Json.getD (.obj pf) "normal".data (.str []))
              | _ => cover_url0
            else cover_url0
          let dsOpt : Option Json :=
            if subject.hasKey "rating".data && (subject.getD "rating".data .null).truthy then
              match subject.getD "rating".data .null with
              | .obj rf => some (Json.getD (.obj rf) "value".data (.num 0))
              | _ => none
            else some (.num 0)
          match dsOpt with
          | none => none
          | some douban_score =>
            let genres := Json.dump (subject.getD "genres".data (.arr []))
            let comment := ensure_string (interest_data.getD "comment".data (.str []))
            let status := ensure_string (interest_data.getD "status".data (.str []))
            let create_time := ensure_string (interest_data.getD "create_time".data (.str []))
            let card_subtitle := ensure_string (subject.getD "card_subtitle".data (.str []))
            let mrOpt : Option Json :=
              if interest_data.hasKey "rating".data &&
                  (interest_data.getD "rating".data .null).truthy then
                match interest_data.getD "rating".data .null with
                | .obj rf => some (Json.getD (.obj rf) "value".data (.num 0))
                | _ => none
              else some (.num 0)
            match mrOpt with
            | none => none
            | some my_rating =>
              some
                { id := interest_id
                  type := subject_type
                  status := status
                  title := title
                  url := url
                  cover_url := cover_url
                  douban_score := douban_score
                  my_rating := my_rating
                  comment := comment
                  genres := genres
                  card_subtitle := card_subtitle
                  create_time := create_time
                  raw_json := Json.dump interest_data }
    else none
  | _ => none

/-- One interest entry of the export document: the row's columns, with
`raw_json` now optional (deletable). -/
structure ExportEntry where
  id : Json
  type : Json
  status : Str
  title : Str
  url : Str
  cover_url : Json
  douban_score : Json
  my_rating : Json
  comment : Str
  genres : Str
  card_subtitle : Str
  create_time : Str
  raw_json : Option Str

/-- Per-item processing of `JsonExporter.export_data`
(`src/services/export/json_exporter.py`, lines 111-120):
`safe_serialize` is the identity on the row's scalar column values, then
`raw_json` is deleted unless `include_raw` is set. -/
def export_item (row : StoredRow) (include_raw : Bool) : ExportEntry :=
  { id := row.id
    type := row.type
    status := row.status
    title := row.title
    url := row.url
    cover_url := row.cover_url
    douban_score := row.douban_score
    my_rating := row.my_rating
    comment := row.comment
    genres := row.genres
    card_subtitle := row.card_subtitle
    create_time := row.create_time
    raw_json := if include_raw then some row.raw_json else none }

/-- `Database.get_interests` filter semantics for the `type_` and
`status` parameters (`src/services/data/database.py`, lines 509-547:
`AND type = ?` / `AND status = ?` added only for truthy arguments; the
other filters are off in the bulk-export path, and sorting/paging do not
change membership).  The stored `type` column holds whatever value
`save_interest` bound, compared against the text parameter. -/
def get_interests (rows : List StoredRow) (type_ : Option Str) (status : Option Str) :
    List StoredRow :=
  rows.filter (fun r =>
    (match type_ with
     | some t => match r.type with | .str s => s == t | _ => false
     | none => true) &&
    (match status with
     | some s => r.status == s
     | none => true))

/-- The `(type, status)` task list spawned by `JsonExporter.export_all_types`
(`src/services/export/json_exporter.py`, lines 281-293): one
`_export_single_type_status` task per supported type and per status in
the hard-coded list `["wish", "doing", "done"]`. -/
def export_all_types_tasks (supported_types : List Str) : List (Str × Str) :=
  supported_types.flatMap
    (fun t => ["wish".data, "doing".data, "done".data].map (fun s => (t, s)))

/-- The rows selected by one `_export_single_type_status(type_, status)`
task (via `export_data` → `get_interests`); when this list is empty,
`export_data` returns `None` and writes no file. -/
def export_task_rows (rows : List StoredRow) (t s : Str) : List StoredRow :=
  get_interests rows (some t) (some s)

/-! ## JSON parsing (`json.loads` on the canonical `json.dumps` output)

A recursive-descent parser over the exact text format `Json.dump`
produces.  `parseVal` runs on structural fuel; `parseJson` supplies
`length + 1`, which the round-trip proof shows is always enough for
dumped values. -/

/-- Longest digit run at the head, as a number (`none` if there is no
digit). -/
def parseNat (cs : Str) : Option (Nat × Str) :=
  let ds := cs.takeWhile Char.isDigit
  if ds.isEmpty then none
  else some (charsToNatAux 0 ds, cs.dropWhile Char.isDigit)

/-- Body of a JSON string after the opening quote: literal characters up
to the closing quote, with backslash taking the next character
verbatim. -/
def parseStrBody : Str → Option (Str × Str)
  | [] => none
  | c :: rest =>
    if c = '\\' then
      match rest with
      | [] => none
      | c2 :: rest2 =>
        match parseStrBody rest2 with
        | some (s, r) => some (c2 :: s, r)
        | none => none
    else if c = '"' then some ([], rest)
    else
      match parseStrBody rest with
      | some (s, r) => some (c :: s, r)
      | none => none

/-- Tail of a `null` literal after the leading `n`. -/
def parseNullTail (rest : Str) : Option (Json × Str) :=
  match rest with
  | c2 :: c3 :: c4 :: rest' =>
    if c2 = 'u' ∧ c3 = 'l' ∧ c4 = 'l' then some (.null, rest') else none
  | _ => none

/-- Tail of a `true` literal after the leading `t`. -/
def parseTrueTail (rest : Str) : Option (Json × Str) :=
  match rest with
  | c2 :: c3 :: c4 :: rest' =>
    if c2 = 'r' ∧ c3 = 'u' ∧ c4 = 'e' then some (.bool true, rest') else none
  | _ => none

/-- Tail of a `false` literal after the leading `f`. -/
def parseFalseTail (rest : Str) : Option (Json × Str) :=
  match rest with
  | c2 :: c3 :: c4 :: c5 :: rest' =>
    if c2 = 'a' ∧ c3 = 'l' ∧ c4 = 's' ∧ c5 = 'e' then some (.bool false, rest') else none
  | _ => none

/-- Negative number after the leading minus sign. -/
def parseNegTail (rest : Str) : Option (Json × Str) :=
  match parseNat rest with
  | some (n, rest') => some (.num (-(n : Int)), rest')
  | none => none

/-- String value after the opening quote. -/
def parseStrTail (rest : Str) : Option (Json × Str) :=
  match parseStrBody rest with
  | some (s, rest') => some (.str s, rest')
  | none => none

/-- Non-negative number starting at the current position. -/
def parseNumHere (cs : Str) : Option (Json × Str) :=
  match parseNat cs with
  | some (n, rest') => some (.num (n : Int), rest')
  | none => none

/-- Array after the opening bracket: empty, or a recursive element
list (the recursive parser is passed in). -/
def parseAfterBracket (pElems : Str → Option (List Json × Str)) (rest : Str) :
    Option (Json × Str) :=
  match rest with
  | [] => none
  | c2 :: rest2 =>
    if c2 = ']' then some (.arr [], rest2)
    else
      match pElems rest with
      | some (es, rest') => some (.arr es, rest')
      | none => none

/-- Object after the opening brace: empty, or a recursive field list. -/
def parseAfterBrace (pFields : Str → Option (List (Str × Json) × Str)) (rest : Str) :
    Option (Json × Str) :=
  match rest with
  | [] => none
  | c2 :: rest2 =>
    if c2 = '\x7d' then some (.obj [], rest2)
    else
      match pFields rest with
      | some (fs, rest') => some (.obj fs, rest')
      | none => none

/-- Continuation after one parsed array element: close on `]`, recurse
after `", "`. -/
def elemsCont (pElems : Str → Option (List Json × Str)) :
    Option (Json × Str) → Option (List Json × Str)
  | none => none
  | some (v, rest) =>
    match rest with
    | [] => none
    | r1 :: rtail =>
      if r1 = ']' then some ([v], rtail)
      else
        match rtail with
        | [] => none
        | r2 :: rtail2 =>
          if r1 = ',' ∧ r2 = ' ' then
            match pElems rtail2 with
            | some (vs, rest2) => some (v :: vs, rest2)
            | none => none
          else none

/-- Continuation after one parsed object key: expect `": "`, a value,
then close on the brace or recurse after `", "`. -/
def fieldsCont (pVal : Str → Option (Json × Str))
    (pFields : Str → Option (List (Str × Json) × Str)) :
    Option (Str × Str) → Option (List (Str × Json) × Str)
  | none => none
  | some (k, rest1) =>
    match rest1 with
    | r1 :: r2 :: rest2 =>
      if r1 = ':' ∧ r2 = ' ' then
        match pVal rest2 with
        | none => none
        | some (v, rest3) =>
          match rest3 with
          | [] => none
          | s1 :: stail =>
            if s1 = '\x7d' then some ([(k, v)], stail)
            else
              match stail with
              | [] => none
              | s2 :: stail2 =>
                if s1 = ',' ∧ s2 = ' ' then
                  match pFields stail2 with
                  | some (fs, rest5) => some ((k, v) :: fs, rest5)
                  | none => none
                else none
      else none
    | _ => none

mutual
/-- Parse one JSON value at the head of the input, dispatching on the
leading character. -/
def parseVal : Nat → Str → Option (Json × Str)
  | 0, _ => none
  | fuel + 1, cs =>
    match cs with
    | [] => none
    | c :: rest =>
      if c = 'n' then parseNullTail rest
      else if c = 't' then parseTrueTail rest
      else if c = 'f' then parseFalseTail rest
      else if c = '-' then parseNegTail rest
      else if c = '"' then parseStrTail rest
      else if c = '[' then parseAfterBracket (parseElems fuel) rest
      else if c = '\x7b' then parseAfterBrace (parseFields fuel) rest
      else if c.isDigit then parseNumHere cs
      else none

/-- Parse a non-empty `", "`-separated element list up to `]`. -/
def parseElems : Nat → Str → Option (List Json × Str)
  | 0, _ => none
  | fuel + 1, cs => elemsCont (parseElems fuel) (parseVal fuel cs)

/-- Parse a non-empty `", "`-separated `"key": value` list up to the
closing brace. -/
def parseFields : Nat → Str → Option (List (Str × Json) × Str)
  | 0, _ => none
  | fuel + 1, cs =>
    match cs with
    | [] => none
    | c :: rest =>
      if c = '"' then fieldsCont (parseVal fuel) (parseFields fuel) (parseStrBody rest)
      else none
end

/-- `json.loads` restricted to the canonical text `Json.dump` emits: the
whole input must be consumed. -/
def parseJson (s : Str) : Option Json :=
  match parseVal (s.length + 1) s with
  | some (v, []) => some v
  | _ => none


/-! ## Concrete fixtures used by witnesses and counterexamples -/

/-- An interest payload whose subject `type` and `status` carry
uppercase letters, otherwise passing every validation check. -/
def c3input : Json :=
  .obj [("id".data, .str "1".data),
        ("status".data, .str "DONE".data),
        ("create_time".data, .str "2024-01-01 00:00:00".data),
        ("subject".data, .obj [("title".data, .str "T".data),
                               ("subtype".data, .str "movie".data),
                               ("type".data, .str "Movie".data)])]

/-- The row `save_interest` writes for `c3input`. -/
def c3row : StoredRow :=
  { id := .str "1".data
    type := .str "Movie".data
    status := "DONE".data
    title := "T".data
    url := []
    cover_url := .str []
    douban_score := .num 0
    my_rating := .num 0
    comment := []
    genres := Json.dump (.arr [])
    card_subtitle := []
    create_time := "2024-01-01 00:00:00".data
    raw_json := Json.dump c3input }

/-- A dashboard cache holding 20 distinct keys, timestamps 0..19. -/
def c2cache20 : List (Str × Nat) :=
  (List.range 20).map (fun i => (natToChars i, i))

/-- A dashboard cache holding 21 distinct keys, timestamps 0..20. -/
def c2cache21 : List (Str × Nat) :=
  (List.range 21).map (fun i => (natToChars i, i))

/-- A 15-key frequency map (the claim's top-10-of-15 example shape). -/
def c7data : List (Str × Nat) :=
  (List.range 15).map (fun i => (natToChars i, 30 - i))

/-- A 3-key frequency map, below the cap. -/
def c7small : List (Str × Nat) :=
  [("a".data, 1), ("b".data, 5), ("c".data, 3)]

/-- A stored row in the wish/`mark` status. -/
def c10markRow : StoredRow :=
  { id := .str "1".data
    type := .str "movie".data
    status := "mark".data
    title := "T".data
    url := []
    cover_url := .str []
    douban_score := .num 0
    my_rating := .num 0
    comment := []
    genres := Json.dump (.arr [])
    card_subtitle := []
    create_time := "2024-01-01 00:00:00".data
    raw_json := [] }

/-- A stored row in the done status. -/
def c10doneRow : StoredRow :=
  { c10markRow with id := .str "2".data, status := "done".data }

/-- A first remote page whose items are all older than 2024. -/
def c4page (total : Nat) : FirstPage :=
  { total := total
    interests := [{ create_time := "2023-05-01 10:00:00".data }] }

/-- The local-count table used by the pre-check witness: 100 books,
60 movies and 40 tv items. -/
def c4counts : Str → Nat := fun t =>
  if t = "book".data then 100
  else if t = "movie".data then 60
  else if t = "tv".data then 40
  else 0


/-- The continuation after a dumped number never begins with a digit
(inside dumped JSON it begins with a separator or closer, or is empty). -/
def HeadNotDigit (rest : Str) : Prop :=
  ∀ c, rest.head? = some c → c.isDigit = false


/-- A payload exercising nested objects, an array, numbers and an
escaped quote, accepted by `save_interest`. -/
def c5payload : Json :=
  .obj [("id".data, .str "42".data),
        ("status".data, .str "done".data),
        ("create_time".data, .str "2024-03-05 12:00:00".data),
        ("comment".data, .str "a \"quoted\" note".data),
        ("rating".data, .obj [("value".data, .num 5)]),
        ("subject".data, .obj [("title".data, .str "T".data),
                               ("subtype".data, .str "movie".data),
                               ("type".data, .str "movie".data),
                               ("genres".data, .arr [.str "剧情".data, .str "动作".data]),
                               ("rating".data, .obj [("value".data, .num 8)]),
                               ("year".data, .str "2019".data)])]

/-! # Verified properties -/

/-- C9: on the type-browsing page, for every total ≥ 0 and limit ≥ 1,
the computed page count is the ceiling of total divided by limit when
total > 0, and 1 when total = 0. -/
theorem C9_type_page_total_pages (total limit : Nat) (hlim : 1 ≤ limit) :
    (total = 0 → total_pages total limit = 1) ∧
    (0 < total → (total_pages total limit : ℤ) = ⌈(total : ℚ) / (limit : ℚ)⌉) := by
  constructor
  · intro h; subst h; simp [total_pages]
  · intro h
    obtain ⟨k, rfl⟩ : ∃ k, limit = k + 1 := ⟨limit - 1, by omega⟩
    have hq : total_pages total (k + 1) = (total + k) / (k + 1) := by
      have hT : total + (k + 1) - 1 = total + k := by omega
      simp [total_pages, h, hT]
    set q := (total + k) / (k + 1) with hqdef
    have hmod := Nat.div_add_mod (total + k) (k + 1)
    have hr : (total + k) % (k + 1) < k + 1 := Nat.mod_lt _ (by omega)
    rw [← hqdef] at hmod
    have hcomm : (k + 1) * q = q * (k + 1) := Nat.mul_comm _ _
    have hub : total ≤ q * (k + 1) := by omega
    have hq1 : 1 ≤ q := by
      rw [hqdef, Nat.le_div_iff_mul_le (by omega : 0 < k + 1)]; omega
    obtain ⟨p, hp⟩ : ∃ p, q = p + 1 := ⟨q - 1, by omega⟩
    have hexp : p * (k + 1) + (k + 1) = q * (k + 1) := by rw [hp]; ring
    have hlb : p * (k + 1) < total := by omega
    rw [hq]
    symm
    rw [Int.ceil_eq_iff]
    have hlimQ : (0 : ℚ) < ((k + 1 : ℕ) : ℚ) := by positivity
    constructor
    · rw [lt_div_iff₀ hlimQ, hp]
      push_cast
      have hlbQ : (p : ℚ) * ((k : ℚ) + 1) < total := by exact_mod_cast hlb
      nlinarith [hlbQ]
    · rw [div_le_iff₀ hlimQ]
      exact_mod_cast hub

/-- C9 witness: the claim's concrete instances, total=101 with limit=24
gives 5 pages and total=0 gives 1 page. -/
theorem C9_type_page_total_pages_witness :
    (total_pages 101 24 : ℤ) = ⌈(101 : ℚ) / (24 : ℚ)⌉ ∧ total_pages 0 24 = 1 :=
  ⟨(C9_type_page_total_pages 101 24 (by norm_num)).2 (by norm_num),
   (C9_type_page_total_pages 0 24 (by norm_num)).1 rfl⟩

/-- C6: the five-bucket rating distribution counts 0 as 未评分, [1,2] as
1-2星, [3,5] as 3-5星, [6,7] as 6-7星, [8,10] as 8-10星 — for scores
[0, 1, 5, 6, 8, 10] the counts are (1, 1, 1, 1, 2) — and a non-integer
score strictly between adjacent buckets, such as 2.5, falls into no
bucket (no SQL `CASE` label, no `elif` counter). -/
theorem C6_rating_buckets :
    byRating [0, 1, 5, 6, 8, 10] = ⟨1, 1, 1, 1, 2⟩ ∧
    ratingGroup (5 / 2 : ℚ) = none ∧
    byRating [(5 / 2 : ℚ)] = ⟨0, 0, 0, 0, 0⟩ := by
  refine ⟨?_, ?_, ?_⟩ <;> norm_num [byRating, addRating, ratingGroup]

/-- C1 evaluation at the failing input: from the idle state with the
default configured types, `start_async_sync` claims the syncing flag and
spawns the worker, but the worker's own `sync_all_data` call then hits
the `is_syncing` guard and returns failure without invoking
`sync_data_by_type` for any type (second conjunct: the per-type list it
runs is empty, though the state does return to idle and the last-sync
timestamp is stamped).  The first conjunct shows the configured types
the claim expects to be synced; the third shows that a direct
`sync_all_data` call from idle does sync exactly those types. -/
theorem C1_async_worker_performs_no_sync :
    effectiveSyncTypes ["movie".data, "book".data] = ["movie".data, "book".data] ∧
    start_async_sync_run ⟨false, none, none⟩ ["movie".data, "book".data] true (fun _ => true) 0 =
      some (false, [], ⟨false, some 0, none⟩) ∧
    sync_all_data ⟨false, none, none⟩ ["movie".data, "book".data] true (fun _ => true) 0 =
      (true, ["movie".data, "book".data], ⟨false, some 0, none⟩) := by
  refine ⟨?_, ?_, ?_⟩ <;> rfl

/-- C8: for the book-type subtitle "[美] 丹·布朗 / 2009 / 人民文学出版社"
the analyzer extracts author = (nationality 美, name 丹·布朗), year 2009
and publisher 人民文学出版社, and no other metadata key. -/
theorem C8_book_subtitle_extraction :
    extract_metadata "book".data "[美] 丹·布朗 / 2009 / 人民文学出版社".data =
      { author := some ⟨"美".data, "丹·布朗".data⟩
        year := some 2009
        publisher := some "人民文学出版社".data
        regions := none
        developer := none } := by
  rfl

/-- C3 counterexample: `save_interest` accepts a payload whose status is
"DONE" and subject type is "Movie" and stores both verbatim — the stored
status is "DONE", not the lowercase "done" the claim requires. -/
theorem C3_counterexample_uppercase_stored :
    (save_interest c3input).map StoredRow.status = some "DONE".data ∧
    (save_interest c3input).map StoredRow.type = some (.str "Movie".data) ∧
    (save_interest c3input).map StoredRow.status ≠ some "done".data := by
  refine ⟨rfl, rfl, ?_⟩
  have h1 : (save_interest c3input).map StoredRow.status = some "DONE".data := rfl
  rw [h1]
  decide

/-- Projections of the row written by `save_interest`: the stored type,
status and raw_json expressed in terms of the input payload. -/
theorem save_interest_projections (payload : Json) (row : StoredRow)
    (h : save_interest payload = some row) :
    row.type = (payload.getD "subject".data (.obj [])).getD "type".data (.str []) ∧
    row.status = ensure_string (payload.getD "status".data (.str [])) ∧
    row.raw_json = Json.dump payload := by
  cases payload with
  | obj fields =>
    simp only [save_interest] at h
    split at h
    · split at h
      · exact absurd h (by simp)
      · split at h
        · exact absurd h (by simp)
        · split at h
          · exact absurd h (by simp)
          · split at h
            · exact absurd h (by simp)
            · have hr := Option.some.inj h
              refine ⟨?_, ?_, ?_⟩ <;> rw [← hr]
    · exact absurd h (by simp)
  | null => exact absurd h (by simp [save_interest])
  | bool b => exact absurd h (by simp [save_interest])
  | num n => exact absurd h (by simp [save_interest])
  | str s => exact absurd h (by simp [save_interest])
  | arr es => exact absurd h (by simp [save_interest])

/-- C3 (amended): `save_interest` stores the subject `type` and the
`status` exactly as provided (status passed through `_ensure_string`,
which is the identity on strings); no lowercasing or other normalization
is applied. -/
theorem C3_status_and_type_stored_verbatim (payload : Json) (row : StoredRow)
    (h : save_interest payload = some row) :
    row.type = (payload.getD "subject".data (.obj [])).getD "type".data (.str []) ∧
    row.status = ensure_string (payload.getD "status".data (.str [])) ∧
    (∀ s, payload.getD "status".data (.str []) = .str s → row.status = s) := by
  obtain ⟨h1, h2, -⟩ := save_interest_projections payload row h
  refine ⟨h1, h2, ?_⟩
  intro s hs
  rw [h2, hs]
  rfl

/-- C3 witness: the amended statement applied to the concrete uppercase
payload, whose row `save_interest` computes to `c3row`. -/
theorem C3_status_and_type_stored_verbatim_witness :
    save_interest c3input = some c3row ∧
    c3row.status = ensure_string (c3input.getD "status".data (.str [])) ∧
    c3row.type = (c3input.getD "subject".data (.obj [])).getD "type".data (.str []) :=
  ⟨rfl, (C3_status_and_type_stored_verbatim c3input c3row rfl).2.1,
    (C3_status_and_type_stored_verbatim c3input c3row rfl).1⟩

/-- C10: in a database state where every stored row's status is one of
mark, doing, done, the bulk exporter's per-(type, status) tasks filter by
the literal statuses wish, doing, done; the wish task selects no rows,
and no task's selection contains a row in the mark status — so
wish/`mark` items appear in no produced file. -/
theorem C10_bulk_export_misses_mark_rows (rows : List StoredRow) (types : List Str)
    (hst : ∀ r ∈ rows,
      r.status = "mark".data ∨ r.status = "doing".data ∨ r.status = "done".data) :
    (∀ ts ∈ export_all_types_tasks types,
      ts.2 = "wish".data ∨ ts.2 = "doing".data ∨ ts.2 = "done".data) ∧
    (∀ t, export_task_rows rows t "wish".data = []) ∧
    (∀ ts ∈ export_all_types_tasks types,
      ∀ r ∈ export_task_rows rows ts.1 ts.2, r.status ≠ "mark".data) := by
  have htask : ∀ ts ∈ export_all_types_tasks types,
      ts.2 = "wish".data ∨ ts.2 = "doing".data ∨ ts.2 = "done".data := by
    intro ts hts
    simp only [export_all_types_tasks, List.mem_flatMap, List.mem_map, List.mem_cons,
      List.not_mem_nil, or_false] at hts
    obtain ⟨t, -, s, hs, rfl⟩ := hts
    simpa using hs
  refine ⟨htask, ?_, ?_⟩
  · intro t
    rw [export_task_rows, get_interests, List.filter_eq_nil_iff]
    intro r hr
    rcases hst r hr with h | h | h <;> simp [h]
  · intro ts hts r hr
    simp only [export_task_rows, get_interests, List.mem_filter, Bool.and_eq_true,
      beq_iff_eq] at hr
    obtain ⟨hrmem, -, hstat⟩ := hr
    rcases htask ts hts with h | h | h <;> rw [hstat, h] <;> decide

/-- C10 witness: a two-row database (one mark row, one done row) and the
movie/book type list — the wish tasks select nothing and no selected row
is in the mark status. -/
theorem C10_bulk_export_misses_mark_rows_witness :
    (∀ t, export_task_rows [c10markRow, c10doneRow] t "wish".data = []) ∧
    (∀ ts ∈ export_all_types_tasks ["movie".data, "book".data],
      ∀ r ∈ export_task_rows [c10markRow, c10doneRow] ts.1 ts.2,
        r.status ≠ "mark".data) :=
  ⟨(C10_bulk_export_misses_mark_rows [c10markRow, c10doneRow] ["movie".data, "book".data]
      (by intro r hr
          simp only [List.mem_cons, List.not_mem_nil, or_false] at hr
          rcases hr with rfl | rfl
          · exact Or.inl rfl
          · exact Or.inr (Or.inr rfl))).2.1,
   (C10_bulk_export_misses_mark_rows [c10markRow, c10doneRow] ["movie".data, "book".data]
      (by intro r hr
          simp only [List.mem_cons, List.not_mem_nil, or_false] at hr
          rcases hr with rfl | rfl
          · exact Or.inl rfl
          · exact Or.inr (Or.inr rfl))).2.2⟩

/-- The running minimum maintained by the `oldestKey` fold: starting from
`some p`, the result is an entry of the list or `p` itself, minimal among
all of them (first occurrence wins on ties, as Python's `min` does). -/
theorem cacheMinFold_spec (l : List (Str × Nat)) (p : Str × Nat) :
    ∃ r, (l.foldl (fun acc q =>
        match acc with
        | none => some q
        | some a => if q.2 < a.2 then some q else some a) (some p)) = some r ∧
      (r = p ∨ r ∈ l) ∧ r.2 ≤ p.2 ∧ ∀ q ∈ l, r.2 ≤ q.2 := by
  induction l generalizing p with
  | nil => exact ⟨p, rfl, Or.inl rfl, le_rfl, by simp⟩
  | cons x xs ih =>
    simp only [List.foldl_cons]
    by_cases hx : x.2 < p.2
    · rw [if_pos hx]
      obtain ⟨r, hfold, hmem, hle, hall⟩ := ih x
      refine ⟨r, hfold, ?_, by omega, ?_⟩
      · rcases hmem with rfl | hm
        · exact Or.inr (List.mem_cons_self _ _)
        · exact Or.inr (List.mem_cons_of_mem _ hm)
      · intro q hq
        rcases List.mem_cons.mp hq with rfl | hq'
        · exact hle
        · exact hall q hq'
    · rw [if_neg hx]
      obtain ⟨r, hfold, hmem, hle, hall⟩ := ih p
      refine ⟨r, hfold, ?_, hle, ?_⟩
      · rcases hmem with rfl | hm
        · exact Or.inl rfl
        · exact Or.inr (List.mem_cons_of_mem _ hm)
      · intro q hq
        rcases List.mem_cons.mp hq with rfl | hq'
        · omega
        · exact hall q hq'

/-- `oldestKey` of a non-empty cache is the key of an entry whose
timestamp is minimal. -/
theorem oldestKey_spec (l : List (Str × Nat)) (hne : l ≠ []) :
    ∃ p ∈ l, oldestKey l = some p.1 ∧ ∀ q ∈ l, p.2 ≤ q.2 := by
  match l, hne with
  | x :: xs, _ =>
    obtain ⟨r, hfold, hmem, hle, hall⟩ := cacheMinFold_spec xs x
    refine ⟨r, ?_, ?_, ?_⟩
    · rcases hmem with rfl | hm
      · exact List.mem_cons_self _ _
      · exact List.mem_cons_of_mem _ hm
    · rw [oldestKey, List.foldl_cons]
      exact congrArg (Option.map Prod.fst) hfold
    · intro q hq
      rcases List.mem_cons.mp hq with rfl | hq'
      · exact hle
      · exact hall q hq'

/-- Deleting a key removes it from the cache's key set. -/
theorem eraseKey_not_mem_keys (l : List (Str × Nat)) (k : Str) :
    k ∉ (eraseKey l k).map Prod.fst := by
  intro hmem
  obtain ⟨p, hp, hpk⟩ := List.mem_map.mp hmem
  have hf := List.of_mem_filter hp
  simp only [decide_eq_true_eq] at hf
  exact hf hpk

/-- With unique keys, deleting the key of a present entry removes exactly
that one entry. -/
theorem eraseKey_length_of_nodup (l : List (Str × Nat)) (p : Str × Nat)
    (hnd : (l.map Prod.fst).Nodup) (hp : p ∈ l) :
    (eraseKey l p.1).length + 1 = l.length := by
  induction l with
  | nil => cases hp
  | cons x xs ih =>
    simp only [List.map_cons, List.nodup_cons] at hnd
    rcases List.mem_cons.mp hp with rfl | hp'
    · have hhead : eraseKey (p :: xs) p.1 = eraseKey xs p.1 := by
        simp [eraseKey]
      have hxs : eraseKey xs p.1 = xs := by
        rw [eraseKey]
        apply List.filter_eq_self.mpr
        intro q hq
        simp only [decide_eq_true_eq]
        intro hcon
        exact hnd.1 (hcon ▸ List.mem_map_of_mem Prod.fst hq)
      rw [hhead, hxs, List.length_cons]
    · have hxk : ¬ (x.1 = p.1) := by
        intro hcon
        exact hnd.1 (hcon ▸ List.mem_map_of_mem Prod.fst hp')
      have hhead : eraseKey (x :: xs) p.1 = x :: eraseKey xs p.1 := by
        simp [eraseKey, hxk]
      rw [hhead, List.length_cons, List.length_cons, ih hnd.2 hp']

/-- Inserting a fresh key appends it. -/
theorem insertEntry_of_fresh (l : List (Str × Nat)) (k : Str) (t : Nat)
    (h : k ∉ l.map Prod.fst) : insertEntry l k t = l ++ [(k, t)] := by
  rw [insertEntry, if_neg]
  intro hcon
  obtain ⟨p, hp, hpk⟩ := List.any_eq_true.mp hcon
  simp only [decide_eq_true_eq] at hpk
  exact h (hpk ▸ List.mem_map_of_mem Prod.fst hp)

/-- C2 (amended): the dashboard cache caps at 21 entries, not 20.
Inserting a fresh key into a cache of at most 20 entries evicts nothing
and appends (so a 21st distinct key grows the cache to 21); inserting a
fresh key into a cache already holding 21 distinct keys evicts exactly
the single oldest-by-timestamp entry (first-inserted on ties), leaving
21 entries including the new one; the cache size never exceeds 21. -/
theorem C2_dashboard_cache_eviction (cache : List (Str × Nat)) (key : Str) (now : Nat)
    (hnd : (cache.map Prod.fst).Nodup) (hfresh : key ∉ cache.map Prod.fst) :
    (cache.length ≤ 20 → save_to_cache cache key now = cache ++ [(key, now)]) ∧
    (cache.length = 21 →
      ∃ p ∈ cache, (∀ q ∈ cache, p.2 ≤ q.2) ∧
        save_to_cache cache key now = eraseKey cache p.1 ++ [(key, now)] ∧
        (save_to_cache cache key now).length = 21 ∧
        (key, now) ∈ save_to_cache cache key now ∧
        p.1 ∉ (save_to_cache cache key now).map Prod.fst) ∧
    (cache.length ≤ 21 → (save_to_cache cache key now).length ≤ 21) := by
  have hcase20 : cache.length ≤ 20 → save_to_cache cache key now = cache ++ [(key, now)] := by
    intro hlen
    rw [save_to_cache]
    have : ¬ (cache.length > 20) := by omega
    rw [if_neg this]
    exact insertEntry_of_fresh cache key now hfresh
  have hcase21 : cache.length = 21 →
      ∃ p ∈ cache, (∀ q ∈ cache, p.2 ≤ q.2) ∧
        save_to_cache cache key now = eraseKey cache p.1 ++ [(key, now)] ∧
        (save_to_cache cache key now).length = 21 ∧
        (key, now) ∈ save_to_cache cache key now ∧
        p.1 ∉ (save_to_cache cache key now).map Prod.fst := by
    intro hlen
    have hne : cache ≠ [] := by
      intro hcon; rw [hcon] at hlen; simp at hlen
    obtain ⟨p, hpmem, hkey, hmin⟩ := oldestKey_spec cache hne
    have hgt : cache.length > 20 := by omega
    have hfresh' : key ∉ (eraseKey cache p.1).map Prod.fst := by
      intro hcon
      obtain ⟨q, hq, hqk⟩ := List.mem_map.mp hcon
      exact hfresh (hqk ▸ List.mem_map_of_mem Prod.fst (List.mem_of_mem_filter hq))
    have heq : save_to_cache cache key now = eraseKey cache p.1 ++ [(key, now)] := by
      rw [save_to_cache]
      rw [if_pos hgt, hkey]
      exact insertEntry_of_fresh _ key now hfresh'
    have herase := eraseKey_length_of_nodup cache p hnd hpmem
    have hlen' : (save_to_cache cache key now).length = 21 := by
      rw [heq, List.length_append, List.length_singleton]
      omega
    refine ⟨p, hpmem, hmin, heq, hlen', ?_, ?_⟩
    · rw [heq]
      exact List.mem_append_right _ (List.mem_singleton_self _)
    · rw [heq]
      intro hcon
      rw [List.map_append] at hcon
      rcases List.mem_append.mp hcon with hin | hin
      · exact eraseKey_not_mem_keys cache p.1 hin
      · simp only [List.map_cons, List.map_nil, List.mem_singleton] at hin
        exact hfresh (hin ▸ List.mem_map_of_mem Prod.fst hpmem)
  refine ⟨hcase20, hcase21, ?_⟩
  intro hlen
  by_cases h20 : cache.length ≤ 20
  · rw [hcase20 h20, List.length_append, List.length_singleton]
    omega
  · have h21 : cache.length = 21 := by omega
    obtain ⟨p, -, -, -, hlen', -, -⟩ := hcase21 h21
    omega

/-- C2 counterexample: inserting a 21st distinct key into a cache of 20
entries does not evict — the result holds 21 entries and the oldest
entry is still present, where the claim requires 20 entries with the
oldest evicted. -/
theorem C2_counterexample_21st_insert_no_eviction :
    (save_to_cache c2cache20 "new".data 100).length = 21 ∧
    (natToChars 0, 0) ∈ save_to_cache c2cache20 "new".data 100 := by
  constructor
  · decide
  · decide

/-- C2 witness: the amended statement applied to concrete caches of 20
and 21 distinct keys. -/
theorem C2_dashboard_cache_eviction_witness :
    (c2cache20.length ≤ 20 ∧
      save_to_cache c2cache20 "new".data 100 = c2cache20 ++ [("new".data, 100)]) ∧
    (c2cache21.length = 21 ∧
      ∃ p ∈ c2cache21, (∀ q ∈ c2cache21, p.2 ≤ q.2) ∧
        save_to_cache c2cache21 "new".data 100 = eraseKey c2cache21 p.1 ++ [("new".data, 100)] ∧
        (save_to_cache c2cache21 "new".data 100).length = 21 ∧
        ("new".data, 100) ∈ save_to_cache c2cache21 "new".data 100 ∧
        p.1 ∉ (save_to_cache c2cache21 "new".data 100).map Prod.fst) :=
  ⟨⟨by decide,
    (C2_dashboard_cache_eviction c2cache20 "new".data 100 (by decide) (by decide)).1 (by decide)⟩,
   ⟨by decide,
    (C2_dashboard_cache_eviction c2cache21 "new".data 100 (by decide) (by decide)).2.1 (by decide)⟩⟩

/-- Evaluation of the pre-check for every type with a non-empty local
timestamp and a non-empty first page: the count-tolerance branch
decides against the type's effective local count (movie+tv combined for
movie), otherwise the result is exactly the sample timestamp
comparison against the effective reference timestamp. -/
theorem pre_check_updates_eval (type_ latestTs tvTs : Str) (fp : FirstPage)
    (getCount : Str → Nat)
    (hts : latestTs ≠ []) (hne : fp.interests ≠ []) :
    pre_check_updates type_ latestTs (some fp) getCount tvTs =
      (if fp.total ≠ preCheckLocalCount type_ getCount ∧
          ¬ (((fp.total : Int) - (preCheckLocalCount type_ getCount : Int)).natAbs ≤ 3 ∨
            (fp.total > 100 ∧
              100 * ((fp.total : Int) - (preCheckLocalCount type_ getCount : Int)).natAbs
                ≤ 2 * fp.total)) then
        (true, fp.total, preCheckLocalCount type_ getCount)
      else (preCheckSampleNewer (preCheckTimestamp type_ latestTs tvTs) fp.interests,
        fp.total, preCheckLocalCount type_ getCount)) := by
  have h2 : ¬ (fp.interests.isEmpty = true) := by
    simpa [List.isEmpty_iff] using hne
  have hlc : preCheckLocalCount type_ getCount =
      (if type_ = "movie".data then getCount "movie".data + getCount "tv".data
       else getCount type_) := rfl
  have htv : preCheckTimestamp type_ latestTs tvTs =
      (if type_ = "movie".data ∧ tvTs ≠ [] ∧ strLt latestTs tvTs then tvTs else latestTs) := rfl
  simp only [pre_check_updates, if_neg hts, if_neg h2]
  rw [← hlc, ← htv]
  by_cases hcond : fp.total ≠ preCheckLocalCount type_ getCount ∧
      ¬ (((fp.total : Int) - (preCheckLocalCount type_ getCount : Int)).natAbs ≤ 3 ∨
        (fp.total > 100 ∧
          100 * ((fp.total : Int) - (preCheckLocalCount type_ getCount : Int)).natAbs
            ≤ 2 * fp.total))
  · rw [if_pos hcond, if_pos hcond]
  · rw [if_neg hcond, if_neg hcond]
    cases hsample : preCheckSampleNewer (preCheckTimestamp type_ latestTs tvTs) fp.interests <;>
      simp [hsample]

/-- C4: for every incremental pre-check with a non-empty local latest
timestamp and a non-empty fetched first page — the effective local
count being the movie+tv combined count for the movie type and the
type's own count otherwise — a remote/local count difference of at most
3, or at most 2% of the remote total when that total exceeds 100, does
not by itself trigger a sync: the result is exactly the
first-five-items timestamp comparison against the effective reference
timestamp (for movie, the tv timestamp when present and newer); a
difference above tolerance makes the pre-check conclude "has updates". -/
theorem C4_pre_check_count_tolerance (type_ latestTs tvTs : Str) (fp : FirstPage)
    (getCount : Str → Nat)
    (hts : latestTs ≠ []) (hne : fp.interests ≠ []) :
    (((fp.total : Int) - (preCheckLocalCount type_ getCount : Int)).natAbs ≤ 3 ∨
        (fp.total > 100 ∧
          100 * ((fp.total : Int) - (preCheckLocalCount type_ getCount : Int)).natAbs
            ≤ 2 * fp.total) →
      pre_check_updates type_ latestTs (some fp) getCount tvTs =
        (preCheckSampleNewer (preCheckTimestamp type_ latestTs tvTs) fp.interests,
          fp.total, preCheckLocalCount type_ getCount)) ∧
    (¬ (((fp.total : Int) - (preCheckLocalCount type_ getCount : Int)).natAbs ≤ 3 ∨
        (fp.total > 100 ∧
          100 * ((fp.total : Int) - (preCheckLocalCount type_ getCount : Int)).natAbs
            ≤ 2 * fp.total)) →
      pre_check_updates type_ latestTs (some fp) getCount tvTs =
        (true, fp.total, preCheckLocalCount type_ getCount)) := by
  have heval := pre_check_updates_eval type_ latestTs tvTs fp getCount hts hne
  constructor
  · intro htol
    rw [heval, if_neg]
    intro hcon
    exact hcon.2 htol
  · intro htol
    rw [heval, if_pos]
    refine ⟨?_, htol⟩
    intro heq
    apply htol
    left
    rw [heq]
    simp

/-- C4 witness: with 100 local book items, a remote total of 101 (diff
1, within tolerance) leaves the decision to the timestamp sample —
concretely no sync, the page items being older — while a remote total
of 210 (diff 110, above both tolerances) concludes "has updates"; the
same holds for the movie type against the combined movie(60)+tv(40)
local count of 100, with the newer local tv timestamp as reference. -/
theorem C4_pre_check_count_tolerance_witness :
    pre_check_updates "book".data "2024-01-01 00:00:00".data (some (c4page 101)) c4counts [] =
      (false, 101, 100) ∧
    pre_check_updates "book".data "2024-01-01 00:00:00".data (some (c4page 210)) c4counts [] =
      (true, 210, 100) ∧
    pre_check_updates "movie".data "2024-01-01 00:00:00".data (some (c4page 101)) c4counts
      "2024-02-01 00:00:00".data = (false, 101, 100) ∧
    pre_check_updates "movie".data "2024-01-01 00:00:00".data (some (c4page 210)) c4counts
      "2024-02-01 00:00:00".data = (true, 210, 100) := by
  refine ⟨?_, ?_, ?_, ?_⟩
  · have h := (C4_pre_check_count_tolerance "book".data "2024-01-01 00:00:00".data []
      (c4page 101) c4counts (by decide) (by decide)).1 (by left; decide)
    rw [h]
    decide
  · exact (C4_pre_check_count_tolerance "book".data "2024-01-01 00:00:00".data []
      (c4page 210) c4counts (by decide) (by decide)).2 (by decide)
  · have h := (C4_pre_check_count_tolerance "movie".data "2024-01-01 00:00:00".data
      "2024-02-01 00:00:00".data (c4page 101) c4counts (by decide) (by decide)).1
      (by left; decide)
    rw [h]
    decide
  · exact (C4_pre_check_count_tolerance "movie".data "2024-01-01 00:00:00".data
      "2024-02-01 00:00:00".data (c4page 210) c4counts (by decide) (by decide)).2 (by decide)

/-- C7: `_find_top_n_rest` returns the map unchanged with remainder 0
when it has at most n keys; with more than n keys it returns exactly n
entries, sorted descending by value, forming with some remainder list a
permutation of the map, every returned value at least every remainder
value, and the reported rest equal to the sum of the remainder's
values. -/
theorem C7_find_top_n_rest_spec (data : List (Str × Nat)) (n : Nat) :
    (data.length ≤ n → find_top_n_rest data n = (data, 0)) ∧
    (n < data.length →
      (find_top_n_rest data n).1.length = n ∧
      (find_top_n_rest data n).1.Pairwise (fun a b : Str × Nat => b.2 ≤ a.2) ∧
      ∃ rest : List (Str × Nat),
        ((find_top_n_rest data n).1 ++ rest).Perm data ∧
        (∀ p ∈ (find_top_n_rest data n).1, ∀ q ∈ rest, q.2 ≤ p.2) ∧
        (find_top_n_rest data n).2 = (rest.map Prod.snd).sum) := by
  constructor
  · intro h; simp [find_top_n_rest, h]
  · intro h
    have hnle : ¬ data.length ≤ n := by omega
    have htrans : ∀ (a b c : Str × Nat),
        (fun a b : Str × Nat => decide (b.2 ≤ a.2)) a b = true →
        (fun a b : Str × Nat => decide (b.2 ≤ a.2)) b c = true →
        (fun a b : Str × Nat => decide (b.2 ≤ a.2)) a c = true := by
      intro a b c hab hbc
      simp only [decide_eq_true_eq] at hab hbc ⊢
      omega
    have htotal : ∀ (a b : Str × Nat),
        ((fun a b : Str × Nat => decide (b.2 ≤ a.2)) a b ||
          (fun a b : Str × Nat => decide (b.2 ≤ a.2)) b a) = true := by
      intro a b
      simp only [Bool.or_eq_true, decide_eq_true_eq]
      omega
    have hsorted := List.sorted_mergeSort htrans htotal data
    have hperm := List.mergeSort_perm data (fun a b : Str × Nat => decide (b.2 ≤ a.2))
    have hpw : (data.mergeSort (fun a b : Str × Nat => decide (b.2 ≤ a.2))).Pairwise
        (fun a b : Str × Nat => b.2 ≤ a.2) := by
      refine hsorted.imp ?_
      intro a b hab
      simpa using hab
    have hlen : (data.mergeSort (fun a b : Str × Nat => decide (b.2 ≤ a.2))).length
        = data.length := hperm.length_eq
    have hts : find_top_n_rest data n =
        ((data.mergeSort (fun a b : Str × Nat => decide (b.2 ≤ a.2))).take n,
          (((data.mergeSort (fun a b : Str × Nat => decide (b.2 ≤ a.2))).drop n).map
            Prod.snd).sum) := by
      simp [find_top_n_rest, hnle]
    rw [hts]
    refine ⟨?_, ?_,
      (data.mergeSort (fun a b : Str × Nat => decide (b.2 ≤ a.2))).drop n, ?_, ?_, rfl⟩
    · simp only [List.length_take, hlen]
      omega
    · exact hpw.sublist (List.take_sublist n _)
    · rw [List.take_append_drop]
      exact hperm
    · intro p hp q hq
      have happ : (List.take n (data.mergeSort (fun a b : Str × Nat => decide (b.2 ≤ a.2))) ++
          List.drop n (data.mergeSort (fun a b : Str × Nat => decide (b.2 ≤ a.2)))).Pairwise
          (fun a b : Str × Nat => b.2 ≤ a.2) := by
        rw [List.take_append_drop]
        exact hpw
      exact (List.pairwise_append.mp happ).2.2 p hp q hq

/-- C7 witness: the spec applied to a 15-key map with n = 10 and to a
3-key map with n = 10. -/
theorem C7_find_top_n_rest_spec_witness :
    (c7small.length ≤ 10 ∧ find_top_n_rest c7small 10 = (c7small, 0)) ∧
    (10 < c7data.length ∧
      ((find_top_n_rest c7data 10).1.length = 10 ∧
        (find_top_n_rest c7data 10).1.Pairwise (fun a b : Str × Nat => b.2 ≤ a.2) ∧
        ∃ rest : List (Str × Nat),
          ((find_top_n_rest c7data 10).1 ++ rest).Perm c7data ∧
          (∀ p ∈ (find_top_n_rest c7data 10).1, ∀ q ∈ rest, q.2 ≤ p.2) ∧
          (find_top_n_rest c7data 10).2 = (rest.map Prod.snd).sum)) :=
  ⟨⟨by decide, (C7_find_top_n_rest_spec c7small 10).1 (by decide)⟩,
   ⟨by decide, (C7_find_top_n_rest_spec c7data 10).2 (by decide)⟩⟩

/-- `charsToNatAux` distributes over list concatenation. -/
theorem charsToNatAux_append (xs ys : Str) (a : Nat) :
    charsToNatAux a (xs ++ ys) = charsToNatAux (charsToNatAux a xs) ys := by
  induction xs generalizing a with
  | nil => rfl
  | cons c cs ih => exact ih (a * 10 + (c.toNat - 48))

/-- The decimal digit characters emitted by `natToCharsAux` are genuine
digits whose value recombines to the printed number. -/
theorem natToCharsAux_spec : ∀ (fuel n : Nat) (acc : Str), n < 10 ^ fuel → 1 ≤ fuel →
    ∃ ds, natToCharsAux fuel n acc = ds ++ acc ∧ ds ≠ [] ∧
      (∀ c ∈ ds, c.isDigit = true) ∧
      ∀ a, charsToNatAux a ds = a * 10 ^ ds.length + n := by
  intro fuel
  induction fuel with
  | zero => intro n acc h h1; omega
  | succ f ih =>
    intro n acc h _
    by_cases h10 : n < 10
    · rw [natToCharsAux, if_pos h10]
      refine ⟨[Char.ofNat (48 + n)], rfl, by simp, ?_, ?_⟩
      · intro c hc
        rw [List.mem_singleton] at hc
        subst hc
        interval_cases n <;> decide
      · intro a
        show a * 10 + ((Char.ofNat (48 + n)).toNat - 48) = a * 10 ^ 1 + n
        have hv : (Char.ofNat (48 + n)).toNat = 48 + n := by
          interval_cases n <;> decide
        rw [hv, pow_one]
        omega
    · rw [natToCharsAux, if_neg h10]
      have hdiv : n / 10 < 10 ^ f := by
        rw [Nat.div_lt_iff_lt_mul (by norm_num : (0:Nat) < 10)]
        calc n < 10 ^ (f + 1) := h
          _ = 10 ^ f * 10 := by rw [pow_succ]
      have hf1 : 1 ≤ f := by
        by_contra hc
        have hf0 : f = 0 := by omega
        rw [hf0] at hdiv
        simp at hdiv
        omega
      obtain ⟨ds, hds, hne, hdig, hval⟩ := ih (n / 10) (Char.ofNat (48 + n % 10) :: acc) hdiv hf1
      have hm10 : n % 10 < 10 := Nat.mod_lt _ (by norm_num)
      refine ⟨ds ++ [Char.ofNat (48 + n % 10)], ?_, by simp [hne], ?_, ?_⟩
      · rw [hds, List.append_assoc, List.singleton_append]
      · intro c hc
        rcases List.mem_append.mp hc with hin | hin
        · exact hdig c hin
        · rw [List.mem_singleton] at hin
          subst hin
          generalize hm : n % 10 = m at hm10
          interval_cases m <;> decide
      · intro a
        rw [charsToNatAux_append, hval a]
        have hv : (Char.ofNat (48 + n % 10)).toNat = 48 + n % 10 := by
          generalize hm : n % 10 = m at hm10
          interval_cases m <;> decide
        show (a * 10 ^ ds.length + n / 10) * 10 +
            ((Char.ofNat (48 + n % 10)).toNat - 48) =
          a * 10 ^ (ds ++ [Char.ofNat (48 + n % 10)]).length + n
        rw [hv]
        simp only [List.length_append, List.length_singleton, pow_succ, ← mul_assoc]
        have hdm := Nat.div_add_mod n 10
        omega

/-- `natToChars n` is a non-empty digit string that reads back as `n`. -/
theorem natToChars_spec (n : Nat) :
    natToChars n ≠ [] ∧ (∀ c ∈ natToChars n, c.isDigit = true) ∧
      charsToNatAux 0 (natToChars n) = n := by
  have hlt : n < 10 ^ (n + 1) := by
    calc n < 2 ^ n := Nat.lt_two_pow n
      _ ≤ 10 ^ n := Nat.pow_le_pow_left (by norm_num) n
      _ ≤ 10 ^ (n + 1) := Nat.pow_le_pow_right (by norm_num) (by omega)
  obtain ⟨ds, hds, hne, hdig, hval⟩ := natToCharsAux_spec (n + 1) n [] hlt (by omega)
  have heq : natToChars n = ds := by
    rw [natToChars, hds, List.append_nil]
  rw [heq]
  refine ⟨hne, hdig, ?_⟩
  rw [hval 0]
  simp

/-- `takeWhile`/`dropWhile` split a digit block from a non-digit
continuation. -/
theorem takeWhile_digits_append (ds rest : Str)
    (hds : ∀ c ∈ ds, c.isDigit = true)
    (hrest : ∀ c, rest.head? = some c → c.isDigit = false) :
    (ds ++ rest).takeWhile Char.isDigit = ds ∧
      (ds ++ rest).dropWhile Char.isDigit = rest := by
  induction ds with
  | nil =>
    simp only [List.nil_append]
    cases rest with
    | nil => simp
    | cons c cs =>
      have hc := hrest c rfl
      simp [List.takeWhile, List.dropWhile, hc]
  | cons d ds ih =>
    have hd : d.isDigit = true := hds d (List.mem_cons_self _ _)
    have hds' : ∀ c ∈ ds, c.isDigit = true :=
      fun c hc => hds c (List.mem_cons_of_mem _ hc)
    obtain ⟨ht, hdr⟩ := ih hds'
    simp [List.takeWhile, List.dropWhile, hd, ht, hdr]

/-- `parseNat` reads back exactly the digits `natToChars` printed. -/
theorem parseNat_natToChars (n : Nat) (rest : Str)
    (hrest : ∀ c, rest.head? = some c → c.isDigit = false) :
    parseNat (natToChars n ++ rest) = some (n, rest) := by
  obtain ⟨hne, hdig, hval⟩ := natToChars_spec n
  obtain ⟨ht, hd⟩ := takeWhile_digits_append (natToChars n) rest hdig hrest
  have hie : (natToChars n).isEmpty = false := by
    cases hnt : natToChars n
    · exact absurd hnt hne
    · rfl
  rw [parseNat, ht, hd, hie]
  simp only [Bool.false_eq_true, if_false]
  rw [hval]

/-- The string-body parser undoes `escapeStr` up to the closing quote. -/
theorem parseStrBody_escape (s rest : Str) :
    parseStrBody (escapeStr s ++ '"' :: rest) = some (s, rest) := by
  induction s with
  | nil =>
    show parseStrBody ('"' :: rest) = some ([], rest)
    rw [parseStrBody.eq_def]
    simp
  | cons c cs ih =>
    by_cases hc : c == '"' || c == '\\'
    · have he : escapeStr (c :: cs) = '\\' :: c :: escapeStr cs := by
        simp only [escapeStr, List.map_cons, List.flatten_cons, escapeChar, if_pos hc]
        rfl
      rw [he]
      show parseStrBody ('\\' :: c :: (escapeStr cs ++ '"' :: rest)) = some (c :: cs, rest)
      rw [parseStrBody.eq_def]
      simp [ih]
    · have he : escapeStr (c :: cs) = c :: escapeStr cs := by
        simp only [escapeStr, List.map_cons, List.flatten_cons, escapeChar, if_neg hc]
        rfl
      rw [he]
      have hc1 : ¬ (c = '\\') := by
        intro hcon
        subst hcon
        simp at hc
      have hc2 : ¬ (c = '"') := by
        intro hcon
        subst hcon
        simp at hc
      show parseStrBody (c :: (escapeStr cs ++ '"' :: rest)) = some (c :: cs, rest)
      rw [parseStrBody.eq_def]
      simp [hc1, hc2, ih]

/-- A digit is none of the JSON leader, closer or separator characters. -/
theorem isDigit_ne_leaders (c : Char) (h : c.isDigit = true) :
    c ≠ 'n' ∧ c ≠ 't' ∧ c ≠ 'f' ∧ c ≠ '-' ∧ c ≠ '"' ∧ c ≠ '[' ∧ c ≠ '\x7b' ∧
      c ≠ ']' ∧ c ≠ '\x7d' ∧ c ≠ ',' ∧ c ≠ ' ' := by
  refine ⟨?_, ?_, ?_, ?_, ?_, ?_, ?_, ?_, ?_, ?_, ?_⟩ <;>
    (intro hcon; subst hcon; exact absurd h (by decide))

/-- Dumped values are non-empty and never start with a closer or
separator. -/
theorem dump_head_spec (v : Json) :
    ∃ c cs, Json.dump v = c :: cs ∧ c ≠ ']' ∧ c ≠ '\x7d' ∧ c ≠ ',' ∧ c ≠ ' ' := by
  cases v with
  | null =>
    refine ⟨'n', ['u', 'l', 'l'], ?_, by decide, by decide, by decide, by decide⟩
    simp [Json.dump]
  | bool b =>
    cases b with
    | true =>
      refine ⟨'t', ['r', 'u', 'e'], ?_, by decide, by decide, by decide, by decide⟩
      simp [Json.dump]
    | false =>
      refine ⟨'f', ['a', 'l', 's', 'e'], ?_, by decide, by decide, by decide, by decide⟩
      simp [Json.dump]
  | num n =>
    have hd : Json.dump (.num n) = intToChars n := by simp [Json.dump]
    rw [hd, intToChars]
    by_cases hn : n < 0
    · exact ⟨'-', natToChars n.natAbs, by rw [if_pos hn], by decide, by decide, by decide,
        by decide⟩
    · rw [if_neg hn]
      obtain ⟨hne, hdig, -⟩ := natToChars_spec n.natAbs
      cases hnc : natToChars n.natAbs with
      | nil => exact absurd hnc hne
      | cons d ds =>
        have hdd : d.isDigit = true := hdig d (hnc ▸ List.mem_cons_self _ _)
        obtain ⟨-, -, -, -, -, -, -, g8, g9, g10, g11⟩ := isDigit_ne_leaders d hdd
        exact ⟨d, ds, rfl, g8, g9, g10, g11⟩
  | str s =>
    refine ⟨'"', escapeStr s ++ ['"'], ?_, by decide, by decide, by decide, by decide⟩
    simp [Json.dump]
  | arr es =>
    cases es with
    | nil =>
      refine ⟨'[', [']'], ?_, by decide, by decide, by decide, by decide⟩
      simp [Json.dump]
    | cons e es' =>
      refine ⟨'[', dumpElems e es' ++ [']'], ?_, by decide, by decide, by decide, by decide⟩
      simp [Json.dump]
  | obj fs =>
    cases fs with
    | nil =>
      refine ⟨'\x7b', ['\x7d'], ?_, by decide, by decide, by decide, by decide⟩
      simp [Json.dump]
    | cons f fs' =>
      refine ⟨'\x7b', dumpFields f fs' ++ ['\x7d'], ?_, by decide, by decide, by decide,
        by decide⟩
      simp [Json.dump]

/-- Dumped element lists start like their first value. -/
theorem dumpElems_head_spec (e : Json) (es : List Json) :
    ∃ c cs, dumpElems e es = c :: cs ∧ c ≠ ']' ∧ c ≠ '\x7d' ∧ c ≠ ',' ∧ c ≠ ' ' := by
  obtain ⟨c, cs, hdc, h1, h2, h3, h4⟩ := dump_head_spec e
  cases es with
  | nil =>
    refine ⟨c, cs, ?_, h1, h2, h3, h4⟩
    rw [show dumpElems e [] = Json.dump e by simp [dumpElems], hdc]
  | cons e' es' =>
    refine ⟨c, cs ++ ',' :: ' ' :: dumpElems e' es', ?_, h1, h2, h3, h4⟩
    rw [show dumpElems e (e' :: es') = Json.dump e ++ ',' :: ' ' :: dumpElems e' es' by
      simp [dumpElems], hdc]
    rfl

/-- Dumped field lists start with the opening quote of their first key. -/
theorem dumpFields_head_spec (f : Str × Json) (fs : List (Str × Json)) :
    ∃ cs, dumpFields f fs = '"' :: cs := by
  obtain ⟨k, v⟩ := f
  cases fs with
  | nil =>
    exact ⟨escapeStr k ++ '"' :: ':' :: ' ' :: Json.dump v, by simp [dumpFields]⟩
  | cons f' fs' =>
    exact ⟨escapeStr k ++ '"' :: ':' :: ' ' :: Json.dump v ++ ',' :: ' ' :: dumpFields f' fs',
      by simp [dumpFields]⟩

set_option maxHeartbeats 2000000 in
/-- The parser reconstructs every dumped value, element list and field
list, given fuel at least the dumped length. -/
theorem parse_dump_mutual : ∀ fuel : Nat,
    (∀ v rest, (Json.dump v).length ≤ fuel → HeadNotDigit rest →
      parseVal fuel (Json.dump v ++ rest) = some (v, rest)) ∧
    (∀ e es rest, (dumpElems e es).length + 1 ≤ fuel →
      parseElems fuel (dumpElems e es ++ ']' :: rest) = some (e :: es, rest)) ∧
    (∀ f fs rest, (dumpFields f fs).length + 1 ≤ fuel →
      parseFields fuel (dumpFields f fs ++ '\x7d' :: rest) = some (f :: fs, rest)) := by
  intro fuel
  induction fuel with
  | zero =>
    refine ⟨?_, ?_, ?_⟩
    · intro v rest hf _
      obtain ⟨c, cs, hdc, -, -, -, -⟩ := dump_head_spec v
      rw [hdc] at hf
      simp at hf
    · intro e es rest hf
      omega
    · intro f fs rest hf
      omega
  | succ fl ih =>
    obtain ⟨ihV, ihE, ihF⟩ := ih
    refine ⟨?_, ?_, ?_⟩
    · intro v rest hf hrest
      cases v with
      | null =>
        rw [show Json.dump .null = ['n', 'u', 'l', 'l'] by simp [Json.dump]]
        rw [parseVal.eq_def]
        simp [parseNullTail]
      | bool b =>
        cases b with
        | true =>
          rw [show Json.dump (.bool true) = ['t', 'r', 'u', 'e'] by simp [Json.dump]]
          rw [parseVal.eq_def]
          simp [parseTrueTail]
        | false =>
          rw [show Json.dump (.bool false) = ['f', 'a', 'l', 's', 'e'] by simp [Json.dump]]
          rw [parseVal.eq_def]
          simp [parseFalseTail]
      | num n =>
        rw [show Json.dump (.num n) = intToChars n by simp [Json.dump], intToChars]
        by_cases hn : n < 0
        · rw [if_pos hn]
          rw [parseVal.eq_def]
          simp only [List.cons_append]
          simp only [Char.reduceEq, reduceIte]
          simp only [parseNegTail, parseNat_natToChars n.natAbs rest hrest]
          simp only [Option.some.injEq, Prod.mk.injEq, Json.num.injEq]
          constructor
          · omega
          · trivial
        · rw [if_neg hn]
          obtain ⟨hne, hdig, -⟩ := natToChars_spec n.natAbs
          cases hnc : natToChars n.natAbs with
          | nil => exact absurd hnc hne
          | cons d ds =>
            have hdd : d.isDigit = true := hdig d (hnc ▸ List.mem_cons_self _ _)
            obtain ⟨g1, g2, g3, g4, g5, g6, g7, -, -, -, -⟩ := isDigit_ne_leaders d hdd
            rw [parseVal.eq_def]
            simp only [List.cons_append]
            rw [if_neg g1, if_neg g2, if_neg g3, if_neg g4, if_neg g5, if_neg g6, if_neg g7,
              if_pos hdd]
            simp only [parseNumHere]
            rw [← List.cons_append, ← hnc, parseNat_natToChars n.natAbs rest hrest]
            simp only [Option.some.injEq, Prod.mk.injEq, Json.num.injEq]
            constructor
            · omega
            · trivial
      | str s =>
        rw [show Json.dump (.str s) = '"' :: escapeStr s ++ ['"'] by simp [Json.dump]]
        rw [parseVal.eq_def]
        simp only [List.cons_append, List.append_assoc, List.singleton_append, List.nil_append]
        simp only [Char.reduceEq, reduceIte]
        simp only [parseStrTail, parseStrBody_escape]
      | arr es =>
        cases es with
        | nil =>
          rw [show Json.dump (.arr []) = ['[', ']'] by simp [Json.dump]]
          rw [parseVal.eq_def]
          simp [parseAfterBracket]
        | cons e es' =>
          have hd : Json.dump (.arr (e :: es')) = '[' :: dumpElems e es' ++ [']'] := by
            simp [Json.dump]
          rw [hd] at hf ⊢
          obtain ⟨c0, cs0, hdc, hne1, -, -, -⟩ := dumpElems_head_spec e es'
          have hlen : (dumpElems e es').length + 1 ≤ fl := by
            simp only [List.length_cons, List.length_append, List.length_singleton] at hf
            omega
          rw [parseVal.eq_def]
          simp only [List.cons_append, List.append_assoc, List.singleton_append, List.nil_append]
          rw [hdc]
          simp only [List.cons_append]
          simp only [Char.reduceEq, reduceIte]
          simp only [parseAfterBracket, if_neg hne1]
          rw [← List.cons_append, ← hdc, ihE e es' rest hlen]
      | obj fs =>
        cases fs with
        | nil =>
          rw [show Json.dump (.obj []) = ['\x7b', '\x7d'] by simp [Json.dump]]
          rw [parseVal.eq_def]
          simp [parseAfterBrace]
        | cons f fs' =>
          have hd : Json.dump (.obj (f :: fs')) = '\x7b' :: dumpFields f fs' ++ ['\x7d'] := by
            simp [Json.dump]
          rw [hd] at hf ⊢
          obtain ⟨cs0, hdc⟩ := dumpFields_head_spec f fs'
          have hlen : (dumpFields f fs').length + 1 ≤ fl := by
            simp only [List.length_cons, List.length_append, List.length_singleton] at hf
            omega
          rw [parseVal.eq_def]
          simp only [List.cons_append, List.append_assoc, List.singleton_append, List.nil_append]
          rw [hdc]
          simp only [List.cons_append]
          simp only [Char.reduceEq, reduceIte]
          simp only [parseAfterBrace, if_neg (by decide : ¬ ('"' = '\x7d'))]
          rw [← List.cons_append, ← hdc, ihF f fs' rest hlen]
    · intro e es rest hf
      cases es with
      | nil =>
        have hde : dumpElems e [] = Json.dump e := by simp [dumpElems]
        rw [hde] at hf ⊢
        have hfe : (Json.dump e).length ≤ fl := by omega
        have hnd : HeadNotDigit (']' :: rest) := by
          intro c hc
          simp only [List.head?_cons, Option.some.injEq] at hc
          subst hc
          decide
        show elemsCont (parseElems fl) (parseVal fl (Json.dump e ++ ']' :: rest)) =
          some ([e], rest)
        rw [ihV e (']' :: rest) hfe hnd]
        simp [elemsCont]
      | cons e' es' =>
        have hde : dumpElems e (e' :: es') = Json.dump e ++ ',' :: ' ' :: dumpElems e' es' := by
          simp [dumpElems]
        rw [hde] at hf ⊢
        obtain ⟨c1, cs1, hdc1, -, -, -, -⟩ := dumpElems_head_spec e' es'
        have hpos : 1 ≤ (dumpElems e' es').length := by
          rw [hdc1]
          simp
        have hlen1 : (Json.dump e).length ≤ fl := by
          simp only [List.length_append, List.length_cons] at hf
          omega
        have hlen2 : (dumpElems e' es').length + 1 ≤ fl := by
          obtain ⟨c2, cs2, hdc2, -, -, -, -⟩ := dump_head_spec e
          have : 1 ≤ (Json.dump e).length := by
            rw [hdc2]
            simp
          simp only [List.length_append, List.length_cons] at hf
          omega
        have hnd : HeadNotDigit (',' :: ' ' :: (dumpElems e' es' ++ ']' :: rest)) := by
          intro c hc
          simp only [List.head?_cons, Option.some.injEq] at hc
          subst hc
          decide
        show elemsCont (parseElems fl)
            (parseVal fl ((Json.dump e ++ ',' :: ' ' :: dumpElems e' es') ++ ']' :: rest)) =
          some (e :: e' :: es', rest)
        rw [List.append_assoc]
        simp only [List.cons_append]
        rw [ihV e (',' :: ' ' :: (dumpElems e' es' ++ ']' :: rest)) hlen1 hnd]
        simp only [elemsCont, Char.reduceEq, and_self, reduceIte]
        rw [ihE e' es' rest hlen2]
    · intro f fs rest hf
      obtain ⟨k, v⟩ := f
      cases fs with
      | nil =>
        have hdf : dumpFields (k, v) [] =
            '"' :: escapeStr k ++ '"' :: ':' :: ' ' :: Json.dump v := by
          simp [dumpFields]
        rw [hdf] at hf ⊢
        have hlenv : (Json.dump v).length ≤ fl := by
          simp only [List.length_cons, List.length_append] at hf
          omega
        have hnd : HeadNotDigit ('\x7d' :: rest) := by
          intro c hc
          simp only [List.head?_cons, Option.some.injEq] at hc
          subst hc
          decide
        rw [parseFields.eq_def]
        simp only [List.cons_append, List.append_assoc]
        simp only [Char.reduceEq, reduceIte]
        rw [parseStrBody_escape]
        simp only [fieldsCont, Char.reduceEq, and_self, reduceIte]
        rw [ihV v ('\x7d' :: rest) hlenv hnd]
        simp
      | cons f' fs' =>
        have hdf : dumpFields (k, v) (f' :: fs') =
            '"' :: escapeStr k ++ '"' :: ':' :: ' ' :: Json.dump v ++
              ',' :: ' ' :: dumpFields f' fs' := by
          simp [dumpFields]
        rw [hdf] at hf ⊢
        obtain ⟨cs1, hdc1⟩ := dumpFields_head_spec f' fs'
        have hposf : 1 ≤ (dumpFields f' fs').length := by
          rw [hdc1]
          simp
        obtain ⟨c2, cs2, hdc2, -, -, -, -⟩ := dump_head_spec v
        have hposv : 1 ≤ (Json.dump v).length := by
          rw [hdc2]
          simp
        have hlenv : (Json.dump v).length ≤ fl := by
          simp only [List.length_cons, List.length_append] at hf
          omega
        have hlenf : (dumpFields f' fs').length + 1 ≤ fl := by
          simp only [List.length_cons, List.length_append] at hf
          omega
        have hnd : HeadNotDigit (',' :: ' ' :: (dumpFields f' fs' ++ '\x7d' :: rest)) := by
          intro c hc
          simp only [List.head?_cons, Option.some.injEq] at hc
          subst hc
          decide
        rw [parseFields.eq_def]
        simp only [List.cons_append, List.append_assoc]
        simp only [Char.reduceEq, reduceIte]
        rw [parseStrBody_escape]
        simp only [fieldsCont, Char.reduceEq, and_self, reduceIte]
        rw [ihV v (',' :: ' ' :: (dumpFields f' fs' ++ '\x7d' :: rest)) hlenv hnd]
        simp only [Char.reduceEq, and_self, reduceIte]
        rw [ihF f' fs' rest hlenf]

/-- Parsing a dumped value returns exactly the value. -/
theorem parseJson_dump (v : Json) : parseJson (Json.dump v) = some v := by
  have h := (parse_dump_mutual ((Json.dump v).length + 1)).1 v [] (by omega)
    (by intro c hc; simp at hc)
  rw [List.append_nil] at h
  rw [parseJson, h]

/-- C5: for every payload accepted and written by `save_interest`, the
export entry produced with include_raw=false has no raw_json value,
while with include_raw=true it carries exactly the dumped payload, and
parsing that dump reproduces the original payload. -/
theorem C5_export_raw_json_round_trip (payload : Json)
    (hacc : (save_interest payload).isSome = true) :
    (save_interest payload).map (fun row => (export_item row false).raw_json) = some none ∧
    (save_interest payload).map (fun row => (export_item row true).raw_json) =
      some (some (Json.dump payload)) ∧
    (save_interest payload).map
      (fun row => (export_item row true).raw_json.map parseJson) =
      some (some (some payload)) := by
  obtain ⟨row, hrow⟩ := Option.isSome_iff_exists.mp hacc
  have hraw := (save_interest_projections payload row hrow).2.2
  rw [hrow]
  refine ⟨?_, ?_, ?_⟩
  · simp [export_item]
  · simp [export_item, hraw]
  · simp [export_item, hraw, parseJson_dump]

/-- C5 witness: the round trip applied to a concrete payload with a
nested subject, a genre array, rating objects and an escaped quote. -/
theorem C5_export_raw_json_round_trip_witness :
    (save_interest c5payload).isSome = true ∧
    ((save_interest c5payload).map (fun row => (export_item row false).raw_json) = some none ∧
      (save_interest c5payload).map (fun row => (export_item row true).raw_json) =
        some (some (Json.dump c5payload)) ∧
      (save_interest c5payload).map
        (fun row => (export_item row true).raw_json.map parseJson) =
        some (some (some c5payload))) :=
  ⟨rfl, C5_export_raw_json_round_trip c5payload rfl⟩
